import Mathlib

/-
Verification of the bidirectional CalDAV synchronization engine of TUI_ToDo
(src/tui_todo/backend/frameworks/external/caldav_sync_service.py).

The sync service is embedded shallowly: Python datetimes become integers,
optional values become Option, the remote CalDAV client becomes an explicit
state (a list of calendars, each a list of events) together with
transport-fault injection flags, and every remote write is recorded in an
explicit trace.  Exceptions become Except.  Event attribute access through
the client (uid / summary / dtstart / dtend / etag / last-modified) is
modelled as total Option reads, following the Remote Calendar Client
abstraction of the specification (section 6).
-/

namespace TuiTodo

/-- Timestamps: Python datetime values, ordered as datetimes are. -/
abbrev Time := Int

/-- The fields of the local Task entity used by the sync engine
(src/tui_todo/backend/core/entities/task.py): id, title, optional due date,
optional last-modified timestamp. -/
structure Task where
  id : String
  title : String
  due_date : Option Time
  last_modified : Option Time
deriving Repr, DecidableEq

/-- A remote calendar event (vevent) as the sync service reads it:
optional uid, summary, optional start/end, optional write stamp, optional
etag, optional last-modified timestamp. -/
structure VEvent where
  uid : Option String
  summary : String
  dtstart : Option Time
  dtend : Option Time
  dtstamp : Option Time
  etag : Option String
  lastmodified : Option Time
deriving Repr, DecidableEq

/-- A remote calendar: a name and its events. -/
structure Calendar where
  name : Option String
  events : List VEvent
deriving Repr, DecidableEq

/-- Transport-level errors raised by remote client calls. -/
inductive Err where
  | transport
deriving Repr, DecidableEq

/-- The remote client state seen by CalDAVSyncService: the calendar list
produced by the constructor, plus fault-injection flags saying whether a
date_search call, an event_by_uid call, or a write call (save / add_event)
raises a transport error. -/
structure Remote where
  calendars : List Calendar
  searchErr : Bool
  lookupErr : Bool
  writeErr : Bool
deriving Repr, DecidableEq

/-- The change record built by fetch_remote_changes (lines 58-82):
uid, summary, start, end, etag, last_modified. -/
structure ChangeRecord where
  uid : Option String
  summary : String
  start : Option Time
  dtend : Option Time
  etag : Option String
  last_modified : Option Time
deriving Repr, DecidableEq

/-- The dictionary returned by sync_bidirectional (line 132). -/
structure SyncResult where
  remote_changes : List ChangeRecord
  remote_deleted : List String
deriving Repr, DecidableEq

/-- A remote write performed by push_local_changes: an event creation
(calendar.add_event) or an event update (event.save). -/
inductive WriteOp where
  | create (uid : String) (summary : String) (dtstart : Option Time)
  | update (uid : String) (summary : String) (dtstart : Option Time)
deriving Repr, DecidableEq

/-- Modelled from the spec: Calendar.search(start, end) of the Remote
Calendar Client returns the events of the calendar falling within
[start, end] (section 6); an event with no start time is not returned. -/
def dateSearch (start endT : Time) (c : Calendar) : List VEvent :=
  c.events.filter (fun e =>
    match e.dtstart with
    | some t => decide (start ≤ t) && decide (t ≤ endT)
    | none => false)

/-- Normalization of a vevent into the dictionary appended by
fetch_remote_changes (lines 74-81). -/
def toChangeRecord (e : VEvent) : ChangeRecord :=
  { uid := e.uid, summary := e.summary, start := e.dtstart, dtend := e.dtend,
    etag := e.etag, last_modified := e.lastmodified }

/-- One calendar.date_search call as issued by fetch_remote_changes: it
raises a transport error when the client is faulty, otherwise yields the
normalized records for the events in the window. -/
def fetchCalendar (searchErr : Bool) (start endT : Time) (c : Calendar) :
    Except Err (List ChangeRecord) :=
  if searchErr then .error .transport
  else .ok ((dateSearch start endT c).map toChangeRecord)

/-- CalDAVSyncService.fetch_remote_changes (lines 58-82): iterate the
calendars, search each over [start, end], and accumulate the normalized
change records; a raised transport error propagates. -/
def fetch_remote_changes (searchErr : Bool) :
    List Calendar → Time → Time → Except Err (List ChangeRecord)
  | [], _, _ => .ok []
  | c :: rest, start, endT =>
    match fetchCalendar searchErr start endT c with
    | .error er => .error er
    | .ok xs =>
      match fetch_remote_changes searchErr rest start endT with
      | .error er => .error er
      | .ok ys => .ok (xs ++ ys)

/-- One calendar.event_by_uid call: raises a transport error when the
client is faulty; otherwise returns the first event carrying the uid, or
none when absent (the caldav not-found exception and the absent case are
identified, since the caller collapses both to None). -/
def event_by_uid (lookupErr : Bool) (c : Calendar) (uid : String) :
    Except Err (Option VEvent) :=
  if lookupErr then .error .transport
  else .ok (c.events.find? (fun e => e.uid == some uid))

/-- The try/except around event_by_uid in push_local_changes (lines
96-99): every exception, transport errors included, is caught and turned
into None. -/
def lookupEvent (lookupErr : Bool) (cal : Calendar) (uid : String) :
    Option VEvent :=
  match event_by_uid lookupErr cal uid with
  | .error _ => none
  | .ok o => o

/-- The fresh event built in the create branch of push_local_changes
(lines 108-115): uid = task id, summary = task title, dtstart = task due
date, dtstamp = now; no etag and no last-modified are set. -/
def newEvent (now : Time) (task : Task) : VEvent :=
  { uid := some task.id, summary := task.title, dtstart := task.due_date,
    dtend := none, dtstamp := some now, etag := none, lastmodified := none }

/-- In-place mutation of the event found by event_by_uid: the first event
with the given uid is rewritten, the rest are untouched. -/
def updateMatching (uid : String) (f : VEvent → VEvent) :
    List VEvent → List VEvent
  | [] => []
  | e :: rest =>
    if e.uid == some uid then f e :: rest
    else e :: updateMatching uid f rest

/-- The update branch of push_local_changes (lines 103-107): the found
event gets summary = task title, dtstart = task due date, dtstamp = now,
and is saved; its last-modified field is not touched. -/
def applyTaskFields (now : Time) (task : Task) (e : VEvent) : VEvent :=
  { e with summary := task.title, dtstart := task.due_date,
           dtstamp := some now }

/-- The calendar after the update branch saved the rewritten event. -/
def updatedCalendar (now : Time) (cal : Calendar) (task : Task) : Calendar :=
  { cal with
    events := updateMatching task.id (applyTaskFields now task) cal.events }

/-- The body of the per-task loop of push_local_changes (lines 93-115) on
one calendar: skip tasks with no due date; look the event up (all lookup
exceptions collapse to None); if found, update exactly when the local
last_modified is present and the remote one is absent or strictly older;
if not found, create a fresh event.  Writes raise when the write path of
the client is faulty. -/
def pushTask (now : Time) (lookupErr writeErr : Bool) (cal : Calendar)
    (task : Task) : Except Err (Calendar × List WriteOp) :=
  match task.due_date with
  | none => .ok (cal, [])
  | some _ =>
    match lookupEvent lookupErr cal task.id with
    | some e =>
      match task.last_modified, e.lastmodified with
      | some _, none =>
        if writeErr then .error .transport
        else .ok (updatedCalendar now cal task,
                  [.update task.id task.title task.due_date])
      | some lm, some r0 =>
        if r0 < lm then
          if writeErr then .error .transport
          else .ok (updatedCalendar now cal task,
                    [.update task.id task.title task.due_date])
        else .ok (cal, [])
      | none, _ => .ok (cal, [])
    | none =>
      if writeErr then .error .transport
      else .ok ({ cal with events := cal.events ++ [newEvent now task] },
                [.create task.id task.title task.due_date])

/-- The inner loop of push_local_changes: one calendar, the whole task
list, threading the calendar state and accumulating the write trace. -/
def pushCalendar (now : Time) (lookupErr writeErr : Bool) :
    Calendar → List Task → Except Err (Calendar × List WriteOp)
  | cal, [] => .ok (cal, [])
  | cal, t :: ts =>
    match pushTask now lookupErr writeErr cal t with
    | .error er => .error er
    | .ok (cal1, ops1) =>
      match pushCalendar now lookupErr writeErr cal1 ts with
      | .error er => .error er
      | .ok (cal2, ops2) => .ok (cal2, ops1 ++ ops2)

/-- The outer loop of push_local_changes: every calendar runs the full
task list (line 92: for calendar in self.calendars: for task in tasks). -/
def pushCalendars (now : Time) (lookupErr writeErr : Bool) (tasks : List Task) :
    List Calendar → Except Err (List Calendar × List WriteOp)
  | [] => .ok ([], [])
  | c :: rest =>
    match pushCalendar now lookupErr writeErr c tasks with
    | .error er => .error er
    | .ok (c1, ops1) =>
      match pushCalendars now lookupErr writeErr tasks rest with
      | .error er => .error er
      | .ok (rest1, ops2) => .ok (c1 :: rest1, ops1 ++ ops2)

/-- CalDAVSyncService.push_local_changes (lines 84-115).  The available
flag models the guard on lines 90-91: when the caldav or icalendar library
is not importable the method returns immediately. -/
def push_local_changes (now : Time) (available : Bool) (r : Remote)
    (tasks : List Task) : Except Err (Remote × List WriteOp) :=
  if available then
    match pushCalendars now r.lookupErr r.writeErr tasks r.calendars with
    | .error er => .error er
    | .ok (cals1, ops) => .ok ({ r with calendars := cals1 }, ops)
  else .ok (r, [])

/-- CalDAVSyncService.sync_bidirectional (lines 117-132): fetch the remote
changes, push the local ones, then report as deleted the set difference
between the local task ids and the non-null fetched uids. -/
def sync_bidirectional (now : Time) (available : Bool) (r : Remote)
    (start endT : Time) (tasks : List Task) :
    Except Err (SyncResult × Remote × List WriteOp) :=
  match fetch_remote_changes r.searchErr r.calendars start endT with
  | .error er => .error er
  | .ok remote =>
    match push_local_changes now available r tasks with
    | .error er => .error er
    | .ok (r1, ops) =>
      .ok ({ remote_changes := remote,
             remote_deleted :=
               ((tasks.map Task.id).dedup).filter
                 (fun i => decide (¬ i ∈ remote.filterMap ChangeRecord.uid)) },
           r1, ops)

/-! Helper lemmas about the event lookup and the per-task push. -/

lemma lookupEvent_of_find (lErr : Bool) (cal : Calendar) (uid : String)
    (h : lErr = false) :
    lookupEvent lErr cal uid = cal.events.find? (fun e => e.uid == some uid) := by
  simp [lookupEvent, event_by_uid, h]

lemma lookupEvent_none (lErr : Bool) (cal : Calendar) (uid : String)
    (h : lErr = true ∨ cal.events.find? (fun e => e.uid == some uid) = none) :
    lookupEvent lErr cal uid = none := by
  rcases h with h | h
  · simp [lookupEvent, event_by_uid, h]
  · simp [lookupEvent, event_by_uid, h]
    cases lErr <;> simp

lemma pushTask_create (now : Time) (lErr : Bool) (cal : Calendar) (task : Task)
    (d : Time) (hdue : task.due_date = some d)
    (hlook : lookupEvent lErr cal task.id = none) :
    pushTask now lErr false cal task =
      .ok ({ cal with events := cal.events ++ [newEvent now task] },
           [WriteOp.create task.id task.title (some d)]) := by
  simp [pushTask, hdue, hlook]

lemma pushTask_skip (now : Time) (lErr wErr : Bool) (cal : Calendar) (task : Task)
    (hdue : task.due_date = none) :
    pushTask now lErr wErr cal task = .ok (cal, []) := by
  simp [pushTask, hdue]

/-- C8: fetching remote changes when the client exposes zero calendars
returns the empty change list and raises no error, for every window and
every fault setting of the search path. -/
theorem C8_empty_calendar_fetch (sErr : Bool) (start endT : Time) :
    fetch_remote_changes sErr [] start endT = .ok [] := rfl

def tieEvent : VEvent :=
  { uid := some "t2", summary := "old", dtstart := some 1, dtend := none,
    dtstamp := none, etag := none, lastmodified := some 5 }

def tieCal : Calendar := { name := none, events := [tieEvent] }

def tieTask : Task :=
  { id := "t2", title := "new", due_date := some 1, last_modified := some 5 }

/-- C3 counterexample: a local task whose last_modified (5) is exactly equal
to the last-modified of the existing remote event with the same uid is NOT
pushed: the calendar is unchanged and no write is issued, so ties are not
resolved with local precedence. -/
theorem C3_tie_counterexample :
    pushTask 9 false false tieCal tieTask = .ok (tieCal, []) := rfl

/-- C3 amended: on an exact tie (local last_modified equal to the remote
last-modified) the push does NOT update the remote event: the comparison is
strict, so the event is left unmodified and no write is issued; local
precedence applies only when the remote timestamp is unavailable. -/
theorem C3_tie_no_update (now : Time) (cal : Calendar) (task : Task)
    (d t : Time) (e : VEvent) (hdue : task.due_date = some d)
    (hfind : cal.events.find? (fun ev => ev.uid == some task.id) = some e)
    (hlm : task.last_modified = some t) (hrm : e.lastmodified = some t) :
    pushTask now false false cal task = .ok (cal, []) := by
  have hlook : lookupEvent false cal task.id = some e :=
    (lookupEvent_of_find false cal task.id rfl).trans hfind
  simp [pushTask, hdue, hlook, hlm, hrm]

/-- C3 amended witness: the tie instance, settled through the amended
theorem. -/
theorem C3_tie_no_update_witness :
    pushTask 11 false false tieCal tieTask = .ok (tieCal, []) :=
  C3_tie_no_update 11 tieCal tieTask 1 5 tieEvent rfl rfl rfl rfl

/-- C7: for a task with a due date whose uid has no remote event (absent
from the calendar, or the lookup raised and was recovered), push creates an
event with uid = task id, summary = task title, dtstart = the due date and
dtstamp = the current write instant, whatever last_modified is. -/
theorem C7_create_when_absent (now : Time) (lErr : Bool) (cal : Calendar)
    (task : Task) (d : Time) (hdue : task.due_date = some d)
    (habsent : lErr = true ∨
      cal.events.find? (fun e => e.uid == some task.id) = none) :
    pushTask now lErr false cal task =
      .ok ({ cal with events := cal.events ++
               [{ uid := some task.id, summary := task.title,
                  dtstart := some d, dtend := none, dtstamp := some now,
                  etag := none, lastmodified := none }] },
           [WriteOp.create task.id task.title (some d)]) := by
  have hlook := lookupEvent_none lErr cal task.id habsent
  rw [pushTask_create now lErr cal task d hdue hlook]
  simp [newEvent, hdue]

def c7Cal : Calendar := { name := none, events := [] }

def c7Task : Task :=
  { id := "t1", title := "a", due_date := some 1, last_modified := none }

/-- C7 witness: the spec scenario — no remote event with uid t1 exists and
last_modified is null; push creates the event. -/
theorem C7_create_when_absent_witness :
    pushTask 3 false false c7Cal c7Task =
      .ok ({ name := none,
             events := [{ uid := some "t1", summary := "a",
                          dtstart := some 1, dtend := none,
                          dtstamp := some 3, etag := none,
                          lastmodified := none }] },
           [WriteOp.create "t1" "a" (some 1)]) :=
  C7_create_when_absent 3 false c7Cal c7Task 1 rfl (Or.inr rfl)

/-- C1: for a task with a due date whose uid has an existing remote event,
push updates the event exactly when the local last_modified is present and
the remote last-modified is unavailable or strictly older; otherwise the
event is left unmodified and no write is issued.  In particular a null
last_modified never overwrites, a strictly newer local copy updates, and a
strictly older local copy leaves the event alone. -/
theorem C1_update_condition (now : Time) (cal : Calendar) (task : Task)
    (d : Time) (e : VEvent) (hdue : task.due_date = some d)
    (hfind : cal.events.find? (fun ev => ev.uid == some task.id) = some e) :
    ((∃ lm, task.last_modified = some lm ∧
        (e.lastmodified = none ∨ ∃ r0, e.lastmodified = some r0 ∧ r0 < lm)) →
      pushTask now false false cal task =
        .ok (updatedCalendar now cal task,
             [WriteOp.update task.id task.title (some d)]))
    ∧ (¬ (∃ lm, task.last_modified = some lm ∧
        (e.lastmodified = none ∨ ∃ r0, e.lastmodified = some r0 ∧ r0 < lm)) →
      pushTask now false false cal task = .ok (cal, [])) := by
  have hlook : lookupEvent false cal task.id = some e :=
    (lookupEvent_of_find false cal task.id rfl).trans hfind
  constructor
  · rintro ⟨lm, hlm, hcond⟩
    rcases hcond with h0 | ⟨r0, hr0, hlt⟩
    · simp [pushTask, hdue, hlook, hlm, h0]
    · simp [pushTask, hdue, hlook, hlm, hr0, hlt]
  · intro hn
    rcases hlm : task.last_modified with _ | lm
    · simp [pushTask, hdue, hlook, hlm]
    · rcases hrm : e.lastmodified with _ | r0
      · exact absurd ⟨lm, hlm, Or.inl hrm⟩ hn
      · have hnlt : ¬ r0 < lm := fun hlt => hn ⟨lm, hlm, Or.inr ⟨r0, hrm, hlt⟩⟩
        simp [pushTask, hdue, hlook, hlm, hrm, hnlt]

def c1Event : VEvent :=
  { uid := some "t9", summary := "old", dtstart := some 2, dtend := none,
    dtstamp := none, etag := none, lastmodified := some 1 }

def c1Cal : Calendar := { name := none, events := [c1Event] }

def c1Task : Task :=
  { id := "t9", title := "new", due_date := some 2, last_modified := some 5 }

/-- C1 witness: a local copy stamped 5 overwrites a remote copy stamped 1. -/
theorem C1_update_condition_witness :
    pushTask 50 false false c1Cal c1Task =
      .ok (updatedCalendar 50 c1Cal c1Task, [WriteOp.update "t9" "new" (some 2)]) :=
  (C1_update_condition 50 c1Cal c1Task 2 c1Event rfl rfl).1
    ⟨5, rfl, Or.inr ⟨1, rfl, by decide⟩⟩

/-! Unfolding lemmas for the recursive loops. -/

lemma pushCalendar_cons (now : Time) (lErr wErr : Bool) (cal : Calendar)
    (t : Task) (ts : List Task) :
    pushCalendar now lErr wErr cal (t :: ts) =
      match pushTask now lErr wErr cal t with
      | .error er => .error er
      | .ok (cal1, ops1) =>
        match pushCalendar now lErr wErr cal1 ts with
        | .error er => .error er
        | .ok (cal2, ops2) => .ok (cal2, ops1 ++ ops2) := rfl

lemma pushCalendars_cons (now : Time) (lErr wErr : Bool) (tasks : List Task)
    (c : Calendar) (cs : List Calendar) :
    pushCalendars now lErr wErr tasks (c :: cs) =
      match pushCalendar now lErr wErr c tasks with
      | .error er => .error er
      | .ok (c1, ops1) =>
        match pushCalendars now lErr wErr tasks cs with
        | .error er => .error er
        | .ok (rest1, ops2) => .ok (c1 :: rest1, ops1 ++ ops2) := rfl

lemma pushCalendar_filter (now : Time) (lErr wErr : Bool) (ts : List Task) :
    ∀ cal, pushCalendar now lErr wErr cal
        (ts.filter fun t => t.due_date.isSome) =
      pushCalendar now lErr wErr cal ts := by
  induction ts with
  | nil => intro cal; rfl
  | cons t ts ih =>
    intro cal
    rcases hd : t.due_date with _ | d
    · have hf : (t :: ts).filter (fun t => t.due_date.isSome) =
          ts.filter (fun t => t.due_date.isSome) := by
        simp [List.filter_cons, hd]
      rw [hf, ih, pushCalendar_cons, pushTask_skip now lErr wErr cal t hd]
      show pushCalendar now lErr wErr cal ts =
        match pushCalendar now lErr wErr cal ts with
        | .error er => .error er
        | .ok (cal2, ops2) => .ok (cal2, [] ++ ops2)
      cases h2 : pushCalendar now lErr wErr cal ts with
      | error er => rfl
      | ok p =>
        obtain ⟨c2, o2⟩ := p
        rfl
    · have hf : (t :: ts).filter (fun t => t.due_date.isSome) =
          t :: ts.filter (fun t => t.due_date.isSome) := by
        simp [List.filter_cons, hd]
      rw [hf, pushCalendar_cons, pushCalendar_cons]
      cases hpt : pushTask now lErr wErr cal t with
      | error er => rfl
      | ok p =>
        obtain ⟨cal1, ops1⟩ := p
        show (match pushCalendar now lErr wErr cal1
                (ts.filter fun t => t.due_date.isSome) with
              | Except.error er => Except.error er
              | Except.ok (cal2, ops2) => Except.ok (cal2, ops1 ++ ops2)) =
            (match pushCalendar now lErr wErr cal1 ts with
              | Except.error er => Except.error er
              | Except.ok (cal2, ops2) => Except.ok (cal2, ops1 ++ ops2))
        rw [ih cal1]

lemma pushCalendars_filter (now : Time) (lErr wErr : Bool) (ts : List Task)
    (cals : List Calendar) :
    pushCalendars now lErr wErr (ts.filter fun t => t.due_date.isSome) cals =
      pushCalendars now lErr wErr ts cals := by
  induction cals with
  | nil => rfl
  | cons c cs ih =>
    rw [pushCalendars_cons, pushCalendars_cons, pushCalendar_filter, ih]

/-- C6: local tasks with a null due date contribute nothing to a push —
dropping them from the task list leaves the pushed remote state and the
whole write trace unchanged, for any client state, fault setting and
library availability; hence neither push_local_changes nor
sync_bidirectional ever creates or updates a remote event on behalf of a
task without a due date. -/
theorem C6_due_date_gating (now : Time) (avail : Bool) (r : Remote)
    (tasks : List Task) :
    push_local_changes now avail r (tasks.filter fun t => t.due_date.isSome) =
      push_local_changes now avail r tasks := by
  unfold push_local_changes
  cases avail
  · rfl
  · rw [pushCalendars_filter]

/-- Inversion of a successful sync cycle into its fetch, push and
deletion-diff components. -/
lemma sync_ok_inv (now : Time) (avail : Bool) (r : Remote)
    (start endT : Time) (tasks : List Task) (res : SyncResult) (r1 : Remote)
    (ops : List WriteOp)
    (h : sync_bidirectional now avail r start endT tasks = .ok (res, r1, ops)) :
    ∃ remote,
      fetch_remote_changes r.searchErr r.calendars start endT = .ok remote ∧
      push_local_changes now avail r tasks = .ok (r1, ops) ∧
      res = { remote_changes := remote,
              remote_deleted := ((tasks.map Task.id).dedup).filter
                (fun i => decide (¬ i ∈ remote.filterMap ChangeRecord.uid)) } := by
  unfold sync_bidirectional at h
  cases hf : fetch_remote_changes r.searchErr r.calendars start endT with
  | error er => rw [hf] at h; cases h
  | ok remote =>
    rw [hf] at h
    cases hp : push_local_changes now avail r tasks with
    | error er => rw [hp] at h; cases h
    | ok p =>
      obtain ⟨r2, ops2⟩ := p
      rw [hp] at h
      simp only [Except.ok.injEq, Prod.mk.injEq] at h
      obtain ⟨hres, hr2, hops2⟩ := h
      refine ⟨remote, rfl, ?_, hres.symm⟩
      rw [hr2, hops2]

/-- C2: in every successful sync cycle, remote_deleted holds exactly the
local task ids matching no non-null uid among the fetched remote changes;
records with a null uid never count as matching. -/
theorem C2_remote_deleted_exact (now : Time) (avail : Bool) (r : Remote)
    (start endT : Time) (tasks : List Task) (res : SyncResult) (r1 : Remote)
    (ops : List WriteOp)
    (h : sync_bidirectional now avail r start endT tasks = .ok (res, r1, ops))
    (i : String) :
    i ∈ res.remote_deleted ↔
      (i ∈ tasks.map Task.id ∧ ∀ c ∈ res.remote_changes, c.uid ≠ some i) := by
  obtain ⟨remote, hf, hp, hres⟩ :=
    sync_ok_inv now avail r start endT tasks res r1 ops h
  subst hres
  simp [List.mem_filter, List.mem_dedup, List.mem_filterMap,
    decide_eq_true_eq]

def c2Ev1 : VEvent :=
  { uid := some "t1", summary := "e1", dtstart := some 5, dtend := none,
    dtstamp := none, etag := none, lastmodified := some 9 }

def c2Ev3 : VEvent :=
  { uid := some "t3", summary := "e3", dtstart := some 7, dtend := none,
    dtstamp := none, etag := none, lastmodified := some 9 }

def c2Remote : Remote :=
  { calendars := [{ name := some "cal", events := [c2Ev1, c2Ev3] }],
    searchErr := false, lookupErr := false, writeErr := false }

def c2Tasks : List Task :=
  [{ id := "t1", title := "a", due_date := some 5, last_modified := none },
   { id := "t2", title := "b", due_date := some 6, last_modified := none },
   { id := "t3", title := "c", due_date := some 7, last_modified := none }]

def c2Res : SyncResult :=
  { remote_changes := [toChangeRecord c2Ev1, toChangeRecord c2Ev3],
    remote_deleted := ["t2"] }

def c2Remote1 : Remote :=
  { calendars := [{ name := some "cal",
                    events := [c2Ev1, c2Ev3,
                               { uid := some "t2", summary := "b",
                                 dtstart := some 6, dtend := none,
                                 dtstamp := some 100, etag := none,
                                 lastmodified := none }] }],
    searchErr := false, lookupErr := false, writeErr := false }

/-- C2 witness: the spec scenario — local ids t1, t2, t3, fetched uids t1
and t3; the id t2 is reported as remotely deleted. -/
theorem C2_remote_deleted_exact_witness : "t2" ∈ c2Res.remote_deleted :=
  (C2_remote_deleted_exact 100 true c2Remote 0 10 c2Tasks c2Res c2Remote1
      [WriteOp.create "t2" "b" (some 6)] rfl "t2").mpr
    ⟨by decide, by decide⟩

/-- C9: with a client exposing zero calendars (as the constructor leaves
things when the CalDAV library is unavailable), every sync cycle succeeds
with an empty remote_changes list, no remote writes, and a remote_deleted
list holding the id of every local task. -/
theorem C9_zero_calendars (now : Time) (avail sErr lErr wErr : Bool)
    (start endT : Time) (tasks : List Task) :
    sync_bidirectional now avail ⟨[], sErr, lErr, wErr⟩ start endT tasks =
      .ok ({ remote_changes := [],
             remote_deleted := (tasks.map Task.id).dedup },
           ⟨[], sErr, lErr, wErr⟩, [])
    ∧ ∀ t ∈ tasks, t.id ∈ (tasks.map Task.id).dedup := by
  constructor
  · have hfilter : ((tasks.map Task.id).dedup).filter
        (fun i => decide
          (¬ i ∈ (([] : List ChangeRecord).filterMap ChangeRecord.uid))) =
        (tasks.map Task.id).dedup := by
      apply List.filter_eq_self.mpr
      intro a _
      simp
    unfold sync_bidirectional push_local_changes
    cases avail <;>
      simp [fetch_remote_changes, pushCalendars, hfilter]
  · intro t ht
    rw [List.mem_dedup]
    exact List.mem_map_of_mem Task.id ht

def c9Task : Task :=
  { id := "z", title := "w", due_date := none, last_modified := none }

/-- C9 witness: one local task, zero calendars — the cycle succeeds and
reports the task as a remote-deletion candidate. -/
theorem C9_zero_calendars_witness :
    sync_bidirectional 0 true ⟨[], false, false, false⟩ 0 10 [c9Task] =
      .ok ({ remote_changes := [], remote_deleted := ["z"] },
           ⟨[], false, false, false⟩, [])
    ∧ c9Task.id ∈ ([c9Task].map Task.id).dedup :=
  ⟨(C9_zero_calendars 0 true false false false 0 10 [c9Task]).1,
   (C9_zero_calendars 0 true false false false 0 10 [c9Task]).2 c9Task
     (by decide)⟩

lemma pushCalendar_single_create (now : Time) (c : Calendar) (task : Task)
    (d : Time) (hdue : task.due_date = some d)
    (habsent : c.events.find? (fun e => e.uid == some task.id) = none) :
    pushCalendar now false false c [task] =
      .ok ({ c with events := c.events ++ [newEvent now task] },
           [WriteOp.create task.id task.title (some d)]) := by
  have hlook := lookupEvent_none false c task.id (Or.inr habsent)
  rw [pushCalendar_cons, pushTask_create now false c task d hdue hlook]
  simp [pushCalendar]

lemma pushCalendars_all_create (now : Time) (task : Task) (d : Time)
    (hdue : task.due_date = some d) :
    ∀ cals : List Calendar,
      (∀ c ∈ cals, c.events.find? (fun e => e.uid == some task.id) = none) →
      pushCalendars now false false [task] cals =
        .ok (cals.map
               (fun c => { c with events := c.events ++ [newEvent now task] }),
             List.replicate cals.length
               (WriteOp.create task.id task.title (some d))) := by
  intro cals
  induction cals with
  | nil => intro _; rfl
  | cons c cs ih =>
    intro habs
    rw [pushCalendars_cons,
        pushCalendar_single_create now c task d hdue (habs c (by simp))]
    rw [ih (fun x hx => habs x (by simp [hx]))]
    simp [List.replicate_succ]

/-- C10: push iterates the full task list once per calendar — for a task
with a due date whose uid matches no event in any calendar, one push call
issues one create per calendar (N creates for N calendars), appending a
copy of the fresh event to every calendar. -/
theorem C10_one_create_per_calendar (now : Time) (sErr : Bool)
    (cals : List Calendar) (task : Task) (d : Time)
    (hdue : task.due_date = some d)
    (habsent : ∀ c ∈ cals,
      c.events.find? (fun e => e.uid == some task.id) = none) :
    push_local_changes now true ⟨cals, sErr, false, false⟩ [task] =
      .ok (⟨cals.map
              (fun c => { c with events := c.events ++ [newEvent now task] }),
            sErr, false, false⟩,
           List.replicate cals.length
             (WriteOp.create task.id task.title (some d))) := by
  have h := pushCalendars_all_create now task d hdue cals habsent
  show (match pushCalendars now false false [task] cals with
        | Except.error er =>
            (Except.error er : Except Err (Remote × List WriteOp))
        | Except.ok (cals1, ops) =>
            Except.ok ({ calendars := cals1, searchErr := sErr,
                         lookupErr := false, writeErr := false }, ops)) = _
  rw [h]

def c10Cals : List Calendar :=
  [{ name := some "c1", events := [] }, { name := some "c2", events := [] }]

def c10Task : Task :=
  { id := "t7", title := "x", due_date := some 4, last_modified := some 1 }

/-- C10 witness: two calendars, a task unknown to both — one push makes two
creates, one event in each calendar. -/
theorem C10_one_create_per_calendar_witness :
    push_local_changes 20 true ⟨c10Cals, false, false, false⟩ [c10Task] =
      .ok (⟨c10Cals.map
              (fun c => { c with events := c.events ++ [newEvent 20 c10Task] }),
            false, false, false⟩,
           List.replicate c10Cals.length (WriteOp.create "t7" "x" (some 4))) :=
  C10_one_create_per_calendar 20 false c10Cals c10Task 4 rfl (by decide)

/-! Success and failure lemmas for the fetch and push phases. -/

lemma fetch_ok (start endT : Time) :
    ∀ cals : List Calendar,
      ∃ l, fetch_remote_changes false cals start endT = .ok l := by
  intro cals
  induction cals with
  | nil => exact ⟨[], rfl⟩
  | cons c cs ih =>
    obtain ⟨l, h⟩ := ih
    exact ⟨(dateSearch start endT c).map toChangeRecord ++ l,
      by simp [fetch_remote_changes, fetchCalendar, h]⟩

lemma pushTask_ok (now : Time) (lErr : Bool) (cal : Calendar) (t : Task) :
    ∃ p, pushTask now lErr false cal t = .ok p := by
  rcases hd : t.due_date with _ | d
  · exact ⟨(cal, []), pushTask_skip now lErr false cal t hd⟩
  · rcases hl : lookupEvent lErr cal t.id with _ | e
    · exact ⟨_, pushTask_create now lErr cal t d hd hl⟩
    · rcases hm : t.last_modified with _ | lm
      · exact ⟨(cal, []), by simp [pushTask, hd, hl, hm]⟩
      · rcases hr : e.lastmodified with _ | r0
        · exact ⟨(updatedCalendar now cal t,
                  [WriteOp.update t.id t.title t.due_date]), by
            simp [pushTask, hd, hl, hm, hr]⟩
        · by_cases hlt : r0 < lm
          · exact ⟨(updatedCalendar now cal t,
                    [WriteOp.update t.id t.title t.due_date]), by
              simp [pushTask, hd, hl, hm, hr, hlt]⟩
          · exact ⟨(cal, []), by simp [pushTask, hd, hl, hm, hr, hlt]⟩

lemma pushCalendar_ok (now : Time) (lErr : Bool) :
    ∀ (ts : List Task) (cal : Calendar),
      ∃ p, pushCalendar now lErr false cal ts = .ok p := by
  intro ts
  induction ts with
  | nil => intro cal; exact ⟨(cal, []), rfl⟩
  | cons t ts ih =>
    intro cal
    obtain ⟨⟨cal1, ops1⟩, h1⟩ := pushTask_ok now lErr cal t
    obtain ⟨⟨cal2, ops2⟩, h2⟩ := ih cal1
    refine ⟨(cal2, ops1 ++ ops2), ?_⟩
    rw [pushCalendar_cons, h1]
    show (match pushCalendar now lErr false cal1 ts with
          | Except.error er =>
              (Except.error er : Except Err (Calendar × List WriteOp))
          | Except.ok (cal2, ops2) => Except.ok (cal2, ops1 ++ ops2)) = _
    rw [h2]

lemma pushCalendars_ok (now : Time) (lErr : Bool) (ts : List Task) :
    ∀ cals : List Calendar,
      ∃ p, pushCalendars now lErr false ts cals = .ok p := by
  intro cals
  induction cals with
  | nil => exact ⟨([], []), rfl⟩
  | cons c cs ih =>
    obtain ⟨⟨c1, ops1⟩, h1⟩ := pushCalendar_ok now lErr ts c
    obtain ⟨⟨rest1, ops2⟩, h2⟩ := ih
    refine ⟨(c1 :: rest1, ops1 ++ ops2), ?_⟩
    rw [pushCalendars_cons, h1]
    show (match pushCalendars now lErr false ts cs with
          | Except.error er =>
              (Except.error er : Except Err (List Calendar × List WriteOp))
          | Except.ok (rest1, ops2) => Except.ok (c1 :: rest1, ops1 ++ ops2)) = _
    rw [h2]

lemma push_ok (now : Time) (avail : Bool) (r : Remote) (tasks : List Task)
    (hw : r.writeErr = false) :
    ∃ q, push_local_changes now avail r tasks = .ok q := by
  unfold push_local_changes
  rw [hw]
  cases avail
  · exact ⟨(r, []), rfl⟩
  · obtain ⟨⟨cals1, ops⟩, h⟩ := pushCalendars_ok now r.lookupErr tasks r.calendars
    refine ⟨({ r with calendars := cals1 }, ops), ?_⟩
    simp [h, hw]

lemma pushCalendar_err (now : Time) :
    ∀ (ts : List Task) (cal : Calendar), (∃ t ∈ ts, t.due_date ≠ none) →
      pushCalendar now true true cal ts = .error .transport := by
  intro ts
  induction ts with
  | nil =>
    intro cal h
    rcases h with ⟨t, ht, _⟩
    cases ht
  | cons t ts ih =>
    intro cal h
    rcases hd : t.due_date with _ | d
    · have h2 : ∃ t0 ∈ ts, t0.due_date ≠ none := by
        rcases h with ⟨t0, ht0, hne⟩
        rcases List.mem_cons.mp ht0 with rfl | hmem
        · exact absurd hd hne
        · exact ⟨t0, hmem, hne⟩
      rw [pushCalendar_cons, pushTask_skip now true true cal t hd]
      show (match pushCalendar now true true cal ts with
            | Except.error er =>
                (Except.error er : Except Err (Calendar × List WriteOp))
            | Except.ok (cal2, ops2) => Except.ok (cal2, [] ++ ops2)) =
          Except.error Err.transport
      rw [ih cal h2]
    · have hlook : lookupEvent true cal t.id = none :=
        lookupEvent_none true cal t.id (Or.inl rfl)
      have hpt : pushTask now true true cal t = .error .transport := by
        simp [pushTask, hd, hlook]
      rw [pushCalendar_cons, hpt]

lemma push_err (now : Time) (r : Remote) (tasks : List Task)
    (hl : r.lookupErr = true) (hw : r.writeErr = true) (hc : r.calendars ≠ [])
    (h : ∃ t ∈ tasks, t.due_date ≠ none) :
    push_local_changes now true r tasks = .error .transport := by
  unfold push_local_changes
  rw [hl, hw]
  rcases hcals : r.calendars with _ | ⟨c, cs⟩
  · exact absurd hcals hc
  · simp only [if_true]
    rw [pushCalendars_cons, pushCalendar_err now tasks c h]

def c4Ev : VEvent :=
  { uid := some "t1", summary := "e", dtstart := some 5, dtend := none,
    dtstamp := none, etag := none, lastmodified := some 9 }

def c4Remote : Remote :=
  { calendars := [{ name := none, events := [c4Ev] }],
    searchErr := false, lookupErr := true, writeErr := false }

def c4Task : Task :=
  { id := "t1", title := "a", due_date := some 5, last_modified := some 3 }

/-- C4 counterexample: the client raises a transport error on every
event_by_uid call (lookupErr), a remote event with the uid of the task does
exist, yet the sync cycle does NOT abort: the bare exception handler
swallows the transport error, treats the task as having no remote event,
and creates a duplicate — the cycle returns ok with a create write. -/
theorem C4_lookup_error_swallowed :
    sync_bidirectional 7 true c4Remote 0 10 [c4Task] =
      .ok ({ remote_changes := [toChangeRecord c4Ev],
             remote_deleted := [] },
           { calendars := [{ name := none,
                             events := [c4Ev, newEvent 7 c4Task] }],
             searchErr := false, lookupErr := true, writeErr := false },
           [WriteOp.create "t1" "a" (some 5)]) := rfl

/-- C4 amended: transport errors raised by date_search during fetch, and by
the write calls of push, propagate and abort the sync cycle; but an error
raised by the per-task event_by_uid lookup — a transport error included —
is caught by the bare exception handler and recovered as must-create, so a
cycle whose fetch and writes succeed always returns ok whatever the lookup
does. -/
theorem C4_transport_errors (now : Time) (r : Remote) (start endT : Time)
    (tasks : List Task) :
    (r.searchErr = true → r.calendars ≠ [] →
       sync_bidirectional now true r start endT tasks = .error .transport)
    ∧ (r.searchErr = false → r.writeErr = false →
       ∃ out, sync_bidirectional now true r start endT tasks = .ok out)
    ∧ (r.searchErr = false → r.lookupErr = true → r.writeErr = true →
       r.calendars ≠ [] → (∃ t ∈ tasks, t.due_date ≠ none) →
       sync_bidirectional now true r start endT tasks = .error .transport) := by
  refine ⟨?_, ?_, ?_⟩
  · intro hs hc
    rcases hcals : r.calendars with _ | ⟨c, cs⟩
    · exact absurd hcals hc
    · unfold sync_bidirectional
      rw [hs, hcals]
      rfl
  · intro hs hw
    obtain ⟨l, hf⟩ := fetch_ok start endT r.calendars
    obtain ⟨⟨r1, ops⟩, hp⟩ := push_ok now true r tasks hw
    unfold sync_bidirectional
    rw [hs, hf, hp]
    exact ⟨_, rfl⟩
  · intro hs hl hw hc hex
    obtain ⟨l, hf⟩ := fetch_ok start endT r.calendars
    unfold sync_bidirectional
    rw [hs, hf, push_err now r tasks hl hw hc hex]

def c4wCal : Calendar := { name := none, events := [] }

def c4wTask : Task :=
  { id := "q", title := "q", due_date := some 1, last_modified := none }

/-- C4 amended witness: a fetch fault aborts, a faultless-write cycle with
a failing lookup succeeds, and a write fault on a forced create aborts. -/
theorem C4_transport_errors_witness :
    sync_bidirectional 0 true ⟨[c4wCal], true, false, false⟩ 0 1 [c4wTask] =
      .error .transport
    ∧ (∃ out,
        sync_bidirectional 0 true ⟨[c4wCal], false, true, false⟩ 0 1 [c4wTask] =
          .ok out)
    ∧ sync_bidirectional 0 true ⟨[c4wCal], false, true, true⟩ 0 1 [c4wTask] =
        .error .transport :=
  ⟨(C4_transport_errors 0 ⟨[c4wCal], true, false, false⟩ 0 1 [c4wTask]).1
      rfl (by simp),
   (C4_transport_errors 0 ⟨[c4wCal], false, true, false⟩ 0 1 [c4wTask]).2.1
      rfl rfl,
   (C4_transport_errors 0 ⟨[c4wCal], false, true, true⟩ 0 1 [c4wTask]).2.2
      rfl rfl rfl (by simp) ⟨c4wTask, by simp, by simp [c4wTask]⟩⟩

/-! A push that produced no write left the remote state untouched and will
do the same again at any later instant. -/

lemma pushTask_nil (now : Time) (lErr wErr : Bool) (cal cal1 : Calendar)
    (t : Task) (h : pushTask now lErr wErr cal t = .ok (cal1, [])) :
    cal1 = cal ∧ ∀ now2, pushTask now2 lErr wErr cal t = .ok (cal, []) := by
  rcases hd : t.due_date with _ | d
  · rw [pushTask_skip now lErr wErr cal t hd] at h
    simp only [Except.ok.injEq, Prod.mk.injEq] at h
    exact ⟨h.1.symm, fun now2 => pushTask_skip now2 lErr wErr cal t hd⟩
  · rcases hl : lookupEvent lErr cal t.id with _ | e
    · cases hwe : wErr <;> simp [pushTask, hd, hl, hwe] at h
    · rcases hm : t.last_modified with _ | lm
      · have heq : pushTask now lErr wErr cal t = .ok (cal, []) := by
          simp [pushTask, hd, hl, hm]
        rw [heq] at h
        simp only [Except.ok.injEq, Prod.mk.injEq] at h
        exact ⟨h.1.symm, fun now2 => by simp [pushTask, hd, hl, hm]⟩
      · rcases hr : e.lastmodified with _ | r0
        · cases hwe : wErr <;> simp [pushTask, hd, hl, hm, hr, hwe] at h
        · by_cases hlt : r0 < lm
          · cases hwe : wErr <;>
              simp [pushTask, hd, hl, hm, hr, hlt, hwe] at h
          · have heq : pushTask now lErr wErr cal t = .ok (cal, []) := by
              simp [pushTask, hd, hl, hm, hr, hlt]
            rw [heq] at h
            simp only [Except.ok.injEq, Prod.mk.injEq] at h
            exact ⟨h.1.symm, fun now2 => by
              simp [pushTask, hd, hl, hm, hr, hlt]⟩

lemma pushCalendar_nil (now : Time) (lErr wErr : Bool) :
    ∀ (ts : List Task) (cal cal1 : Calendar),
      pushCalendar now lErr wErr cal ts = .ok (cal1, []) →
      cal1 = cal ∧
        ∀ now2, pushCalendar now2 lErr wErr cal ts = .ok (cal, []) := by
  intro ts
  induction ts with
  | nil =>
    intro cal cal1 h
    injection h with h1
    simp only [Prod.mk.injEq] at h1
    exact ⟨h1.1.symm, fun now2 => rfl⟩
  | cons t ts ih =>
    intro cal cal1 h
    rw [pushCalendar_cons] at h
    cases hpt : pushTask now lErr wErr cal t with
    | error er => rw [hpt] at h; cases h
    | ok p =>
      obtain ⟨calA, opsA⟩ := p
      rw [hpt] at h
      have h2 : (match pushCalendar now lErr wErr calA ts with
            | Except.error er =>
                (Except.error er : Except Err (Calendar × List WriteOp))
            | Except.ok (cal2, ops2) => Except.ok (cal2, opsA ++ ops2)) =
          Except.ok (cal1, []) := h
      cases hpc : pushCalendar now lErr wErr calA ts with
      | error er => rw [hpc] at h2; cases h2
      | ok q =>
        obtain ⟨calB, opsB⟩ := q
        rw [hpc] at h2
        simp only [Except.ok.injEq, Prod.mk.injEq] at h2
        obtain ⟨hB, hops⟩ := h2
        obtain ⟨hA0, hB0⟩ := List.append_eq_nil.mp hops
        subst hA0
        subst hB0
        obtain ⟨hcalA, hptAll⟩ := pushTask_nil now lErr wErr cal calA t hpt
        obtain ⟨hcalB, hpcAll⟩ := ih calA calB hpc
        constructor
        · rw [← hB, hcalB, hcalA]
        · intro now2
          rw [pushCalendar_cons, hptAll now2]
          show (match pushCalendar now2 lErr wErr cal ts with
                | Except.error er =>
                    (Except.error er : Except Err (Calendar × List WriteOp))
                | Except.ok (cal2, ops2) => Except.ok (cal2, [] ++ ops2)) =
              Except.ok (cal, [])
          have h3 := hpcAll now2
          rw [hcalA] at h3
          rw [h3]
          rfl

lemma pushCalendars_nil (now : Time) (lErr wErr : Bool) (ts : List Task) :
    ∀ cals cals1 : List Calendar,
      pushCalendars now lErr wErr ts cals = .ok (cals1, []) →
      cals1 = cals ∧
        ∀ now2, pushCalendars now2 lErr wErr ts cals = .ok (cals, []) := by
  intro cals
  induction cals with
  | nil =>
    intro cals1 h
    injection h with h1
    simp only [Prod.mk.injEq] at h1
    exact ⟨h1.1.symm, fun now2 => rfl⟩
  | cons c cs ih =>
    intro cals1 h
    rw [pushCalendars_cons] at h
    cases hpc : pushCalendar now lErr wErr c ts with
    | error er => rw [hpc] at h; cases h
    | ok p =>
      obtain ⟨cA, opsA⟩ := p
      rw [hpc] at h
      have h2 : (match pushCalendars now lErr wErr ts cs with
            | Except.error er =>
                (Except.error er : Except Err (List Calendar × List WriteOp))
            | Except.ok (rest1, ops2) => Except.ok (cA :: rest1, opsA ++ ops2)) =
          Except.ok (cals1, []) := h
      cases hps : pushCalendars now lErr wErr ts cs with
      | error er => rw [hps] at h2; cases h2
      | ok q =>
        obtain ⟨restB, opsB⟩ := q
        rw [hps] at h2
        simp only [Except.ok.injEq, Prod.mk.injEq] at h2
        obtain ⟨hB, hops⟩ := h2
        obtain ⟨hA0, hB0⟩ := List.append_eq_nil.mp hops
        subst hA0
        subst hB0
        obtain ⟨hcA, hpcAll⟩ := pushCalendar_nil now lErr wErr ts c cA hpc
        obtain ⟨hrest, hpsAll⟩ := ih restB hps
        constructor
        · rw [← hB, hcA, hrest]
        · intro now2
          rw [pushCalendars_cons, hpcAll now2]
          show (match pushCalendars now2 lErr wErr ts cs with
                | Except.error er =>
                    (Except.error er : Except Err (List Calendar × List WriteOp))
                | Except.ok (rest1, ops2) => Except.ok (c :: rest1, [] ++ ops2)) =
              Except.ok (c :: cs, [])
          rw [hpsAll now2]
          rfl

lemma push_nil (now : Time) (avail : Bool) (r r1 : Remote) (tasks : List Task)
    (h : push_local_changes now avail r tasks = .ok (r1, [])) :
    r1 = r ∧ ∀ now2, push_local_changes now2 avail r tasks = .ok (r, []) := by
  cases avail
  · have heq : push_local_changes now false r tasks = .ok (r, []) := rfl
    rw [heq] at h
    simp only [Except.ok.injEq, Prod.mk.injEq] at h
    exact ⟨h.1.symm, fun now2 => rfl⟩
  · have hstep : ∀ (n : Time), push_local_changes n true r tasks =
        match pushCalendars n r.lookupErr r.writeErr tasks r.calendars with
        | Except.error er => Except.error er
        | Except.ok (cals1, ops) =>
            Except.ok ({ r with calendars := cals1 }, ops) := fun n => rfl
    rw [hstep now] at h
    cases hps : pushCalendars now r.lookupErr r.writeErr tasks r.calendars with
    | error er => rw [hps] at h; cases h
    | ok p =>
      obtain ⟨cals1, ops⟩ := p
      rw [hps] at h
      simp only [Except.ok.injEq, Prod.mk.injEq] at h
      obtain ⟨hr1, hops⟩ := h
      subst hops
      obtain ⟨hcals, hpsAll⟩ :=
        pushCalendars_nil now r.lookupErr r.writeErr tasks r.calendars cals1 hps
      subst hcals
      have hr : r1 = r := by rw [← hr1]
      refine ⟨hr, fun now2 => ?_⟩
      rw [hstep now2, hpsAll now2]

def c5Remote : Remote :=
  { calendars := [{ name := none, events := [] }],
    searchErr := false, lookupErr := false, writeErr := false }

def c5Task : Task :=
  { id := "t1", title := "a", due_date := some 5, last_modified := some 3 }

def c5Remote1 : Remote :=
  { calendars := [{ name := none, events := [newEvent 100 c5Task] }],
    searchErr := false, lookupErr := false, writeErr := false }

def c5Remote2 : Remote :=
  { calendars := [{ name := none,
                    events := [applyTaskFields 200 c5Task (newEvent 100 c5Task)] }],
    searchErr := false, lookupErr := false, writeErr := false }

/-- C5 counterexample: one task with a due date inside the window and a
non-null last_modified, starting from one empty calendar.  The first cycle
creates the event; the second cycle, with the same unchanged task and no
remote-side change in between, nevertheless issues a remote update write
(the created event carries no last-modified, so the comparison treats the
remote timestamp as unavailable) and returns a remote_changes list that
differs from the first result (it now contains the created event).  Both
halves of the idempotence claim fail. -/
theorem C5_not_idempotent :
    (sync_bidirectional 100 true c5Remote 0 10 [c5Task] =
      .ok ({ remote_changes := [], remote_deleted := ["t1"] }, c5Remote1,
           [WriteOp.create "t1" "a" (some 5)]))
    ∧ (sync_bidirectional 200 true c5Remote1 0 10 [c5Task] =
      .ok ({ remote_changes := [toChangeRecord (newEvent 100 c5Task)],
             remote_deleted := [] }, c5Remote2,
           [WriteOp.update "t1" "a" (some 5)]))
    ∧ [WriteOp.update "t1" "a" (some 5)] ≠ ([] : List WriteOp)
    ∧ [toChangeRecord (newEvent 100 c5Task)] ≠ ([] : List ChangeRecord) :=
  ⟨rfl, rfl, by simp, by simp⟩

/-- C5 amended: the second of two successive sync cycles over the same
unchanged task list and with no remote-side change in between produces no
remote writes and an identical result PROVIDED the first cycle itself
performed no remote writes; in general the second cycle may issue update
writes for pushed tasks (events created by push carry no last-modified
timestamp) and its remote_changes gains the events the first cycle
created. -/
theorem C5_idempotent_when_quiescent (now1 now2 : Time) (avail : Bool)
    (r : Remote) (start endT : Time) (tasks : List Task) (res1 : SyncResult)
    (r1 : Remote)
    (h : sync_bidirectional now1 avail r start endT tasks = .ok (res1, r1, [])) :
    sync_bidirectional now2 avail r1 start endT tasks = .ok (res1, r1, []) := by
  obtain ⟨remote, hf, hp, hres⟩ :=
    sync_ok_inv now1 avail r start endT tasks res1 r1 [] h
  obtain ⟨hr1, hAll⟩ := push_nil now1 avail r r1 tasks hp
  subst hr1
  unfold sync_bidirectional
  rw [hf, hAll now2, hres]

def c5qRemote : Remote :=
  { calendars := [{ name := none, events := [] }],
    searchErr := false, lookupErr := false, writeErr := false }

/-- C5 amended witness: a cycle over a task without a due date performs no
writes, and the following cycle returns the identical result with no
writes. -/
theorem C5_idempotent_when_quiescent_witness :
    sync_bidirectional 5 true c5qRemote 0 10 [c9Task] =
      .ok ({ remote_changes := [], remote_deleted := ["z"] }, c5qRemote, []) :=
  C5_idempotent_when_quiescent 0 5 true c5qRemote 0 10 [c9Task]
    { remote_changes := [], remote_deleted := ["z"] } c5qRemote rfl

end TuiTodo
